import Mathlib

/-!
Verification of the miblib BigQuery writer (`src/mib/bq/_writer.py`,
`src/mib/bq/_proto_helper.py`) against its natural-language specification.

The development shallowly embeds the schema compiler
(`build_desriptor_proto`), the row-encoder compiler (`build_struct_filler`),
the buffered append/submit/close protocol (`BQBatchWriterStream`), the
commit sequence (`BQBatchWriter.commit`) and the numeric behaviour of the
built-in TIMESTAMP converter, and proves or refutes the frozen claims about
them.
-/

namespace Miblib

/-! ## Column schema (bigquery.schema.SchemaField as used by the code)

A schema field carries a name, a type tag string, a mode string
("NULLABLE" / "REPEATED" / anything else is treated as REQUIRED by the
code) and the ordered nested sub-schema (meaningful for RECORD/STRUCT). -/

inductive SchemaField : Type where
  | mk (name : String) (field_type : String) (mode : String)
       (fields : List SchemaField)
deriving Repr

def SchemaField.name : SchemaField → String
  | .mk n _ _ _ => n

def SchemaField.field_type : SchemaField → String
  | .mk _ t _ _ => t

def SchemaField.mode : SchemaField → String
  | .mk _ _ m _ => m

def SchemaField.fields : SchemaField → List SchemaField
  | .mk _ _ _ fs => fs

/-! ## Protobuf descriptor model (`descriptor_pb2`) -/

/-- The wire types used by `create_mapping` in the source. -/
inductive PType : Type where
  | TYPE_STRING | TYPE_BYTES | TYPE_INT64 | TYPE_DOUBLE
  | TYPE_BOOL | TYPE_MESSAGE | TYPE_INT32
deriving DecidableEq, Repr

inductive FieldLabel : Type where
  | LABEL_OPTIONAL | LABEL_REPEATED | LABEL_REQUIRED
deriving DecidableEq, Repr

/-- One entry of `DescriptorProto.field` as filled in by the source's
`desc.field.add(name=..., number=..., type=..., [type_name=...,] label=...)`. -/
structure FieldDescrProto : Type where
  name : String
  number : Nat
  type : PType
  type_name : Option String
  label : FieldLabel
deriving DecidableEq, Repr

/-- `descriptor_pb2.DescriptorProto`: a message name, its ordered field list
and its ordered nested message types. -/
inductive DescriptorProto : Type where
  | mk (name : String) (field : List FieldDescrProto)
       (nested_type : List DescriptorProto)

def DescriptorProto.name : DescriptorProto → String
  | .mk n _ _ => n

def DescriptorProto.field : DescriptorProto → List FieldDescrProto
  | .mk _ f _ => f

def DescriptorProto.nested_type : DescriptorProto → List DescriptorProto
  | .mk _ _ n => n

/-! ## Python dict helpers

The source uses Python dicts for the type mapping; `d.get(k, default)` and
the `|` merge (right operand wins) are modelled on association lists. -/

def dictGet {α : Type} (d : List (String × α)) (k : String) : Option α :=
  (d.find? (fun p => p.1 == k)).map (fun p => p.2)

/-- `a | b` on dicts: lookups in the merged dict prefer `b` (override wins). -/
def dictMerge {α : Type} (a b : List (String × α)) : List (String × α) :=
  a.filter (fun p => (dictGet b p.1).isNone) ++ b

/-- The built-in tag → wire-type table of `create_mapping`. -/
def builtin_mapping : List (String × PType) :=
  [("STRING", .TYPE_STRING), ("BYTES", .TYPE_BYTES),
   ("INTEGER", .TYPE_INT64), ("INT64", .TYPE_INT64),
   ("FLOAT", .TYPE_DOUBLE), ("FLOAT64", .TYPE_DOUBLE),
   ("BOOLEAN", .TYPE_BOOL), ("BOOL", .TYPE_BOOL),
   ("RECORD", .TYPE_MESSAGE), ("TIME", .TYPE_STRING),
   ("DATETIME", .TYPE_STRING), ("DATE", .TYPE_INT32),
   ("GEOGRAPHY", .TYPE_STRING), ("JSON", .TYPE_STRING),
   ("TIMESTAMP", .TYPE_INT64), ("NUMERIC", .TYPE_STRING),
   ("BIGNUMERIC", .TYPE_STRING)]

/-- `create_mapping(custom)`: built-in table merged with the caller's
overrides, override wins on tag collision. -/
def create_mapping (custom : List (String × PType)) : List (String × PType) :=
  dictMerge builtin_mapping custom

/-! ## Python `str.title()` (ASCII model)

`build_desriptor_proto` derives nested type names with `field.name.title()`.
Python titlecases the first cased character of every run of cased characters
and lowercases the rest; this is the ASCII restriction of that rule. -/

def pyTitleGo : Bool → List Char → List Char
  | _, [] => []
  | prevAlpha, c :: cs =>
    if c.isAlpha then
      (if prevAlpha then c.toLower else c.toUpper) :: pyTitleGo true cs
    else
      c :: pyTitleGo false cs

def pyTitle (s : String) : String :=
  ⟨pyTitleGo false s.data⟩

/-! ## The schema compiler `build_desriptor_proto`

The Python loop `for number, field in enumerate(fields, 1)` is embedded as a
recursion over the field list threading the running `number`; the result
pair is (field list, nested_type list) of the descriptor under
construction.  A RECORD/STRUCT field recursively compiles its sub-schema
under the derived name `"MIB" + name + field.name.title()`. -/

def descBody (mapping : List (String × PType)) :
    List SchemaField → String → Nat →
    List FieldDescrProto × List DescriptorProto
  | [], _, _ => ([], [])
  | SchemaField.mk fname ftype fmode ffields :: rest, name, number =>
    let label :=
      if fmode == "NULLABLE" then FieldLabel.LABEL_OPTIONAL
      else if fmode == "REPEATED" then FieldLabel.LABEL_REPEATED
      else FieldLabel.LABEL_REQUIRED
    let ft := (dictGet mapping ftype).getD PType.TYPE_STRING
    let restPair := descBody mapping rest name (number + 1)
    if ftype == "RECORD" || ftype == "STRUCT" then
      let tn := "MIB" ++ name ++ pyTitle fname
      let sub := descBody mapping ffields tn 1
      (⟨fname, number, ft, some tn, label⟩ :: restPair.1,
       DescriptorProto.mk tn sub.1 sub.2 :: restPair.2)
    else
      (⟨fname, number, ft, none, label⟩ :: restPair.1, restPair.2)
termination_by fs _ _ => sizeOf fs

/-- `build_desriptor_proto(fields, name, mapping)` from the source. -/
def build_desriptor_proto (fields : List SchemaField) (name : String)
    (mapping : List (String × PType)) : DescriptorProto :=
  DescriptorProto.mk name (descBody mapping fields name 1).1
    (descBody mapping fields name 1).2

/-! ## Field-numbering invariant (claim C1) -/

mutual
/-- A descriptor's field numbers are exactly `1..N` in field-list order, at
this level and recursively in every nested descriptor. -/
def fieldNumbersOK : DescriptorProto → Bool
  | .mk _ fs ns =>
    (fs.map (fun f => f.number) == List.range' 1 fs.length)
      && allNumbersOK ns

def allNumbersOK : List DescriptorProto → Bool
  | [] => true
  | d :: ds => fieldNumbersOK d && allNumbersOK ds
end

/-! ## Python values and protobuf instances, for `build_struct_filler`

`build_struct_filler` compiles the schema into a list of per-column actions
and applies them in order to a destination protobuf instance `dst` and a
source record `src` (a Python dict).  Values are modelled by `PyVal`
(`PyVal.none` is Python's `None`; a converter is an opaque callable
`PyVal → PyVal`).  A protobuf instance is a finite map from field names to
field states; an absent entry is an unset field (protobuf default). -/

inductive PyVal : Type where
  | none
  | str (s : String)
  | int (n : Int)
  | bool (b : Bool)
  | list (xs : List PyVal)
  | dict (entries : List (String × PyVal))

def PyVal.isNone : PyVal → Bool
  | .none => true
  | _ => false

inductive FieldState : Type where
  | unset
  | scal (v : PyVal)
  | reps (vs : List PyVal)
  | msg (fields : List (String × FieldState))
  | msgs (items : List (List (String × FieldState)))

/-- A protobuf message instance: named field states. -/
abbrev Inst := List (String × FieldState)

/-- `getattr(dst, name)`-style read of a field state; unset if absent. -/
def instGet (dst : Inst) (n : String) : FieldState :=
  ((dst.find? (fun p => p.1 == n)).map (fun p => p.2)).getD .unset

/-- `setattr(dst, name, v)`-style write: replace in place, else append. -/
def instSet (dst : Inst) (n : String) (v : FieldState) : Inst :=
  if dst.any (fun p => p.1 == n) then
    dst.map (fun p => if p.1 == n then (n, v) else p)
  else
    dst ++ [(n, v)]

/-- Contents of a repeated scalar field (`getattr(dst, name)` as a list). -/
def fieldRepsList : FieldState → List PyVal
  | .reps vs => vs
  | _ => []

/-- Contents of a singular message field (`getattr(dst, name)`); an unset
message field reads as the empty default message. -/
def fieldMsg : FieldState → Inst
  | .msg m => m
  | _ => []

/-- Contents of a repeated message field. -/
def fieldMsgs : FieldState → List Inst
  | .msgs ms => ms
  | _ => []

/-- `src.get(name)`: defined only when `src` is a dict (otherwise Python
raises `AttributeError`, modelled as `.error ()`); a missing key yields
Python `None`, i.e. `PyVal.none`. -/
def pyDictGet (src : PyVal) (n : String) : Except Unit PyVal :=
  match src with
  | .dict entries =>
    .ok (((entries.find? (fun p => p.1 == n)).map (fun p => p.2)).getD .none)
  | _ => .error ()

/-- The value `src.get(n)` yields on a dict with the given entries. -/
def lookupD (entries : List (String × PyVal)) (n : String) : PyVal :=
  ((entries.find? (fun p => p.1 == n)).map (fun p => p.2)).getD .none

/-- Converter dictionary lookup, `converter.get(field_type, lambda v: v)`
modelled with `Option.getD` at use sites. -/
def convGet (conv : List (String × (PyVal → PyVal))) (k : String) :
    Option (PyVal → PyVal) :=
  (conv.find? (fun p => p.1 == k)).map (fun p => p.2)

/-! The compiled filler.  `applyFiller` is the application of the action
list produced by `build_struct_filler(fields, converter)` — compilation and
application are fused into one recursion over the schema, exactly mirroring
the per-column closures of the source:
* scalar NULLABLE: `(v is not None) and setattr(dst, name, c(v))` with
  `v = src.get(name)`;
* scalar REPEATED: `(v is not None) and getattr(dst, name).extend([c(r) for r in v])`;
* scalar otherwise (REQUIRED): `setattr(dst, name, c(src.get(name)))` —
  unconditional, the converter sees `None` when the key is absent;
* RECORD/STRUCT NULLABLE: `(v is not None) and a(getattr(dst, name), v)`;
* RECORD/STRUCT REPEATED: `(v is not None) and [a(d.add(), i) for i in v]`;
* RECORD/STRUCT otherwise: `a(getattr(dst, name), src.get(name))`.
Iterating a non-list value is modelled as an error; a raised error aborts
the remaining actions, as a Python exception would. -/

mutual
def applyFiller (conv : List (String × (PyVal → PyVal))) :
    List SchemaField → Inst → PyVal → Except Unit Inst
  | [], dst, _ => .ok dst
  | f :: rest, dst, src =>
    match applyAction conv f dst src with
    | .error e => .error e
    | .ok dst1 => applyFiller conv rest dst1 src
termination_by fs _ sv => (sizeOf fs, sizeOf sv)

def applyAction (conv : List (String × (PyVal → PyVal))) :
    SchemaField → Inst → PyVal → Except Unit Inst
  | .mk fname ftype fmode ffields, dst, src =>
    if ftype == "RECORD" || ftype == "STRUCT" then
      if fmode == "NULLABLE" then
        match pyDictGet src fname with
        | .error e => .error e
        | .ok v =>
          if v.isNone then .ok dst
          else
            match applyFiller conv ffields (fieldMsg (instGet dst fname)) v with
            | .error e => .error e
            | .ok sub => .ok (instSet dst fname (.msg sub))
      else if fmode == "REPEATED" then
        match pyDictGet src fname with
        | .error e => .error e
        | .ok v =>
          if v.isNone then .ok dst
          else
            match v with
            | .list items =>
              match applyEach conv ffields items with
              | .error e => .error e
              | .ok news =>
                .ok (instSet dst fname (.msgs (fieldMsgs (instGet dst fname) ++ news)))
            | _ => .error ()
      else
        match pyDictGet src fname with
        | .error e => .error e
        | .ok v =>
          match applyFiller conv ffields (fieldMsg (instGet dst fname)) v with
          | .error e => .error e
          | .ok sub => .ok (instSet dst fname (.msg sub))
    else
      let c := (convGet conv ftype).getD (fun v => v)
      if fmode == "NULLABLE" then
        match pyDictGet src fname with
        | .error e => .error e
        | .ok v =>
          if v.isNone then .ok dst
          else .ok (instSet dst fname (.scal (c v)))
      else if fmode == "REPEATED" then
        match pyDictGet src fname with
        | .error e => .error e
        | .ok v =>
          if v.isNone then .ok dst
          else
            match v with
            | .list items =>
              .ok (instSet dst fname (.reps (fieldRepsList (instGet dst fname) ++ items.map c)))
            | _ => .error ()
      else
        match pyDictGet src fname with
        | .error e => .error e
        | .ok v => .ok (instSet dst fname (.scal (c v)))
termination_by f _ sv => (sizeOf f, sizeOf sv)

/-- `[a(d.add(), i) for i in v]`: one fresh empty sub-instance per source
element, filled in source order. -/
def applyEach (conv : List (String × (PyVal → PyVal))) :
    List SchemaField → List PyVal → Except Unit (List Inst)
  | _, [] => .ok []
  | fs, i :: is =>
    match applyFiller conv fs [] i with
    | .error e => .error e
    | .ok m =>
      match applyEach conv fs is with
      | .error e => .error e
      | .ok ms => .ok (m :: ms)
termination_by fs vs => (sizeOf fs, sizeOf vs)
end

/-! ## `BQBatchWriterStream`: buffering, submit, close

Rows are already-serialized byte strings (bytes modelled as `List Nat`);
the filling/serialization step producing them is the protobuf library and
is covered by the filler model above.  `sent` records the append requests
handed to the transport, in order, standing for the retained futures. -/

/-- One `AppendRowsRequest` built by `submit()`: the stamped offset and the
serialized row payloads it wraps. -/
structure SentRequest : Type where
  offset : Int
  rows : List (List Nat)
deriving DecidableEq, Repr

structure WriterStream : Type where
  offset : Int
  size : Nat
  total_size : Nat
  buffered : List (List Nat)
  sent : List SentRequest
deriving DecidableEq, Repr

/-- The fixed flush threshold of `append()` (`if self.size > 9_000_000`). -/
def THRESHOLD : Nat := 9000000

/-- `submit()`: if the buffer is non-empty, send one request stamped with
the current offset wrapping all buffered rows, advance the offset by the
row count, reset buffer and size, add to the lifetime total. -/
def WriterStream.submit (s : WriterStream) : WriterStream :=
  let n := s.buffered.length
  if 0 < n then
    { offset := s.offset + n, size := 0,
      total_size := s.total_size + s.size,
      buffered := [], sent := s.sent ++ [⟨s.offset, s.buffered⟩] }
  else s

/-- One iteration of the `for src in args` loop of `append()`: serialize
(given here as the row's bytes), buffer, count, and flush if the running
size now exceeds the threshold. -/
def WriterStream.appendRow (s : WriterStream) (row : List Nat) : WriterStream :=
  let s1 : WriterStream :=
    { s with buffered := s.buffered ++ [row], size := s.size + row.length }
  if THRESHOLD < s1.size then s1.submit else s1

/-- `append(*args)` over the serialized rows, in order. -/
def WriterStream.append (s : WriterStream) (rows : List (List Nat)) : WriterStream :=
  rows.foldl WriterStream.appendRow s

/-- The stream state produced by `BQBatchWriter.open()` with its default
`offset = 0`. -/
def openedStream : WriterStream :=
  ⟨0, 0, 0, [], []⟩

/-- States reachable from a freshly opened stream by `append`/`submit`
(`close()`'s state change is its initial `submit()`). -/
inductive Reachable : WriterStream → Prop where
  | init : Reachable openedStream
  | append {s : WriterStream} (row : List Nat) :
      Reachable s → Reachable (s.appendRow row)
  | submit {s : WriterStream} : Reachable s → Reachable s.submit

/-- Total number of rows wrapped in the requests sent so far. -/
def sentRows (l : List SentRequest) : Nat :=
  (l.map (fun r => r.rows.length)).sum

/-- Each request in the list is stamped with the running row count starting
from `k`. -/
def offsetsFrom : List SentRequest → Int → Bool
  | [], _ => true
  | r :: rest, k =>
    (r.offset == k) && offsetsFrom rest (k + (r.rows.length : Int))

/-! `close()` of `BQBatchWriterStream`:

```
def close(self):
    self.submit()
    for f in self.futures:
        f.result()
    self.stream.close()
    return self.total_size
```

The futures' resolutions are an input (`outcomes`, in the order the
requests were sent).  `f.result()` re-raises a failed future's error, which
aborts the `for` loop and propagates out of `close()` — there is no
`try`/`finally` — so on failure the remaining futures are never awaited and
`self.stream.close()` is never reached. -/

deriving instance DecidableEq for Except

structure CloseResult : Type where
  flushed : WriterStream
  awaited : Nat
  transportClosed : Bool
  result : Except String Nat
deriving DecidableEq, Repr

/-- Await the futures in order; count how many `f.result()` calls ran and
return the first failure, if any. -/
def drainFutures : List (Except String Unit) → Nat × Except String Unit
  | [] => (0, .ok ())
  | .ok () :: rest =>
    let p := drainFutures rest
    (p.1 + 1, p.2)
  | .error e :: _ => (1, .error e)

def WriterStream.close (s : WriterStream) (outcomes : List (Except String Unit)) :
    CloseResult :=
  let s1 := s.submit
  let p := drainFutures outcomes
  match p.2 with
  | .ok () => ⟨s1, p.1, true, .ok s1.total_size⟩
  | .error e => ⟨s1, p.1, false, .error e⟩

/-! ## `BQBatchWriter.commit()`

```
def commit(self):
    if len(self.streams) > 0:
        total_size = 0
        for s in self.streams:
            total_size += s.close()
        self.streams = []
        self.wc.finalize_write_stream(name=self.write_stream)
        cr = types.BatchCommitWriteStreamsRequest()
        ...
        self.wc.batch_commit_write_streams(cr)
```

The writer state is the list of open streams, each abstracted to the result
its `close()` will produce; outcomes of the finalize and commit transport
calls are inputs.  The trace records the finalize/commit calls issued, in
order.  A stream-close failure propagates before `self.streams = []` runs,
so the streams list is left intact in that case. -/

inductive WEvent : Type where
  | finalizeCall
  | commitCall
deriving DecidableEq, Repr

structure BQWriter : Type where
  streams : List (Except String Nat)
deriving DecidableEq, Repr

/-- First failure among the streams' `close()` results, in order. -/
def firstErrorOf : List (Except String Nat) → Option String
  | [] => none
  | .ok _ :: rest => firstErrorOf rest
  | .error e :: _ => some e

def commitModel (w : BQWriter) (finRes comRes : Except String Unit) :
    BQWriter × List WEvent × Except String Unit :=
  if 0 < w.streams.length then
    match firstErrorOf w.streams with
    | some e => (w, [], .error e)
    | none =>
      match finRes with
      | .error e => (⟨[]⟩, [.finalizeCall], .error e)
      | .ok () =>
        match comRes with
        | .error e => (⟨[]⟩, [.finalizeCall, .commitCall], .error e)
        | .ok () => (⟨[]⟩, [.finalizeCall, .commitCall], .ok ())
  else (w, [], .ok ())

/-! ## The built-in TIMESTAMP converter (claim C8)

`create_converter` maps `"TIMESTAMP"` to `lambda v: int(v.timestamp() * 1_000_000)`.
For an aware (UTC) datetime lying `μ` exact microseconds after the Unix
epoch, CPython computes `v.timestamp()` as the correctly-rounded IEEE-754
binary64 value of `μ / 10^6` (`timedelta.total_seconds` divides exact
integers), multiplies by `10^6` with one more correctly-rounded binary64
operation, and `int()` truncates toward zero.  The two rounding steps are
modelled exactly on ℕ: `roundDoubleFrac a b` is the nearest binary64 to
`a / b` (round to nearest, ties to even) returned as an exact fraction.
The model covers `1 ≤ a/b < 2^64`, which contains every value this
converter meets for post-1970 timestamps. -/

/-- Fuel-driven ⌊log₂ n⌋; 64 units of fuel cover every `n < 2^64`. -/
def log2fuel : Nat → Nat → Nat
  | 0, _ => 0
  | f + 1, n => if n ≤ 1 then 0 else log2fuel f (n / 2) + 1

def floorLog2N (n : Nat) : Nat := log2fuel 64 n

/-- Round `n / d` (`d > 0`) to the nearest integer, ties to even. -/
def roundHalfEvenN (n d : Nat) : Nat :=
  let q := n / d
  let r := n % d
  if 2 * r < d then q
  else if d < 2 * r then q + 1
  else if q % 2 = 0 then q else q + 1

/-- The IEEE-754 binary64 nearest to `a / b`, as the exact fraction
(numerator, denominator): the significand is rounded to 53 bits at the
binade `2^e ≤ a/b < 2^(e+1)`. -/
def roundDoubleFrac (a b : Nat) : Nat × Nat :=
  let e := floorLog2N (a / b)
  if e ≤ 52 then
    (roundHalfEvenN (a * 2 ^ (52 - e)) b, 2 ^ (52 - e))
  else
    (roundHalfEvenN a (b * 2 ^ (e - 52)) * 2 ^ (e - 52), 1)

/-- `int(v.timestamp() * 1_000_000)` for the aware UTC datetime `μ` exact
microseconds after the Unix epoch. -/
def pyTimestampMicros (μ : Nat) : Nat :=
  let t := roundDoubleFrac μ 1000000
  let r := roundDoubleFrac (t.1 * 1000000) t.2
  r.1 / r.2

/-! # Theorems -/

/-! ## C1: per-level field numbering -/

theorem descBody_numbers (mapping : List (String × PType)) :
    ∀ (fields : List SchemaField) (name : String) (k : Nat),
      (descBody mapping fields name k).1.map (fun f => f.number) =
        List.range' k fields.length := by
  intro fields
  induction fields with
  | nil => intro name k; simp [descBody]
  | cons f rest ih =>
    intro name k
    cases f with
    | mk fn ft fm ff =>
      by_cases hty : (ft == "RECORD" || ft == "STRUCT") = true
      · simp [descBody, hty, ih, List.range'_succ]
      · simp [descBody, hty, ih, List.range'_succ]

theorem descBody_names (mapping : List (String × PType)) :
    ∀ (fields : List SchemaField) (name : String) (k : Nat),
      (descBody mapping fields name k).1.map (fun f => f.name) =
        fields.map SchemaField.name := by
  intro fields
  induction fields with
  | nil => intro name k; simp [descBody]
  | cons f rest ih =>
    intro name k
    cases f with
    | mk fn ft fm ff =>
      by_cases hty : (ft == "RECORD" || ft == "STRUCT") = true
      · simp [descBody, hty, ih, SchemaField.name]
      · simp [descBody, hty, ih, SchemaField.name]

/-- The nested descriptors produced at one level are exactly the compiled
sub-schemas of the RECORD/STRUCT columns, in order, under the derived
names. -/
theorem descBody_nested (mapping : List (String × PType)) :
    ∀ (fields : List SchemaField) (name : String) (k : Nat),
      (descBody mapping fields name k).2 =
        (fields.filter
          (fun f => f.field_type == "RECORD" || f.field_type == "STRUCT")).map
          (fun f =>
            build_desriptor_proto f.fields ("MIB" ++ name ++ pyTitle f.name)
              mapping) := by
  intro fields
  induction fields with
  | nil => intro name k; simp [descBody]
  | cons f rest ih =>
    intro name k
    cases f with
    | mk fn ft fm ff =>
      by_cases hty : (ft == "RECORD" || ft == "STRUCT") = true
      · simp [descBody, hty, ih, SchemaField.field_type, SchemaField.fields,
          SchemaField.name, build_desriptor_proto]
      · simp [descBody, hty, ih, SchemaField.field_type]

theorem sizeOf_fields_lt_of_mem {fields : List SchemaField} {f : SchemaField}
    (h : f ∈ fields) : sizeOf f.fields < sizeOf fields := by
  have h1 : sizeOf f < sizeOf fields := List.sizeOf_lt_of_mem h
  cases f with
  | mk n t m fs =>
    simp only [SchemaField.fields]
    have h2 : sizeOf (SchemaField.mk n t m fs) = 1 + sizeOf n + sizeOf t + sizeOf m + sizeOf fs := by
      simp
    omega

theorem allNumbersOK_iff (l : List DescriptorProto) :
    allNumbersOK l = true ↔ ∀ d ∈ l, fieldNumbersOK d = true := by
  induction l with
  | nil => simp [allNumbersOK]
  | cons d ds ih => simp [allNumbersOK, ih]

theorem fieldNumbersOK_build (n : Nat) :
    ∀ (fields : List SchemaField), sizeOf fields < n →
      ∀ (name : String) (mapping : List (String × PType)),
        fieldNumbersOK (build_desriptor_proto fields name mapping) = true := by
  induction n with
  | zero => intro fields h; exact absurd h (Nat.not_lt_zero _)
  | succ n ih =>
    intro fields h name mapping
    have hnum := descBody_numbers mapping fields name 1
    have hlen : (descBody mapping fields name 1).1.length = fields.length := by
      have := congrArg List.length hnum
      simpa using this
    rw [build_desriptor_proto, fieldNumbersOK]
    rw [Bool.and_eq_true]
    constructor
    · rw [hlen, hnum]
      simp
    · rw [allNumbersOK_iff]
      intro d hd
      rw [descBody_nested] at hd
      obtain ⟨f, hf, rfl⟩ := List.mem_map.1 hd
      have hf2 : f ∈ fields := (List.mem_filter.1 hf).1
      have hsz : sizeOf f.fields < n := by
        have := sizeOf_fields_lt_of_mem hf2
        omega
      exact ih f.fields hsz _ mapping

/-- C1: for every column schema, `build_desriptor_proto` assigns field
numbers exactly `1..N` in schema input order at each nesting level — the
emitted field list is in schema order and every child descriptor restarts
its numbering at 1, regardless of sibling subtree sizes. -/
theorem C1_field_numbering (fields : List SchemaField) (name : String)
    (mapping : List (String × PType)) :
    fieldNumbersOK (build_desriptor_proto fields name mapping) = true ∧
    (build_desriptor_proto fields name mapping).field.map (fun f => f.name) =
      fields.map SchemaField.name :=
  ⟨fieldNumbersOK_build (sizeOf fields + 1) fields (Nat.lt_succ_self _) name
      mapping,
   by simpa [build_desriptor_proto, DescriptorProto.field] using
      descBody_names mapping fields name 1⟩

/-! ## C9: nested-type naming -/

/-- The names of a descriptor's nested types, in order. -/
def nestedNames (d : DescriptorProto) : List String :=
  d.nested_type.map DescriptorProto.name

/-- The RECORD/STRUCT columns of a schema level, in order. -/
def recordCols (fields : List SchemaField) : List SchemaField :=
  fields.filter (fun f => f.field_type == "RECORD" || f.field_type == "STRUCT")

theorem appendLeftInjective (s : String) :
    Function.Injective (fun t => s ++ t) := by
  intro a b h
  have h2 : (s ++ a).data = (s ++ b).data := congrArg String.data h
  simp at h2
  exact congrArg String.mk h2

/-- The nested-type names of one compiled level are exactly
`"MIB" ++ name ++ title(column name)` over the RECORD/STRUCT columns. -/
theorem nestedNames_build (fields : List SchemaField) (name : String)
    (mapping : List (String × PType)) :
    nestedNames (build_desriptor_proto fields name mapping) =
      (recordCols fields).map (fun f => "MIB" ++ name ++ pyTitle f.name) := by
  have h := descBody_nested mapping fields name 1
  simp only [nestedNames, build_desriptor_proto, DescriptorProto.nested_type, h,
    recordCols, List.map_map]
  rfl

/-- C9 counterexample: the sibling RECORD columns "abc" and "ABC" have
distinct names, yet both title-case to "Abc", so the compiled descriptor
holds two nested types with the identical name "MIBRowAbc" — the derivation
does not guarantee nested-type name uniqueness. -/
theorem C9_counterexample :
    nestedNames (build_desriptor_proto
        [SchemaField.mk "abc" "RECORD" "NULLABLE" [],
         SchemaField.mk "ABC" "RECORD" "NULLABLE" []] "Row"
        (create_mapping []))
      = ["MIBRowAbc", "MIBRowAbc"] ∧
    ¬ (nestedNames (build_desriptor_proto
        [SchemaField.mk "abc" "RECORD" "NULLABLE" [],
         SchemaField.mk "ABC" "RECORD" "NULLABLE" []] "Row"
        (create_mapping []))).Nodup ∧
    ("abc" : String) ≠ "ABC" := by
  refine ⟨?_, ?_, by decide⟩ <;>
    simp [nestedNames_build, recordCols, SchemaField.field_type,
      SchemaField.name] <;> decide

/-- C9 (amended): nested-type names are derived deterministically as
`"MIB" ++ parent name ++ title-cased column name`, identically on every
compilation of the same schema; they are unique within the descriptor
provided the title-cased names of the RECORD/STRUCT columns of that level
are pairwise distinct (title-casing can collide for distinct column
names, e.g. names differing only in letter case). -/
theorem C9_nested_type_names (fields : List SchemaField) (name : String)
    (mapping : List (String × PType))
    (h : ((recordCols fields).map (fun f => pyTitle f.name)).Nodup) :
    nestedNames (build_desriptor_proto fields name mapping) =
      (recordCols fields).map (fun f => "MIB" ++ name ++ pyTitle f.name) ∧
    (nestedNames (build_desriptor_proto fields name mapping)).Nodup := by
  refine ⟨nestedNames_build fields name mapping, ?_⟩
  rw [nestedNames_build fields name mapping]
  have hmm : (recordCols fields).map (fun f => "MIB" ++ name ++ pyTitle f.name)
      = ((recordCols fields).map (fun f => pyTitle f.name)).map
          (fun t => "MIB" ++ name ++ t) := by
    simp [List.map_map]
  rw [hmm]
  exact h.map (appendLeftInjective ("MIB" ++ name))

/-- C9 witness: a schema whose two RECORD columns "street" and "city"
title-case distinctly, so the hypothesis of `C9_nested_type_names` holds
and the compiled nested-type names are unique. -/
theorem C9_nested_type_names_witness :
    (nestedNames (build_desriptor_proto
        [SchemaField.mk "street" "RECORD" "NULLABLE" [],
         SchemaField.mk "city" "RECORD" "REPEATED" []] "Row"
        (create_mapping []))).Nodup :=
  (C9_nested_type_names
    [SchemaField.mk "street" "RECORD" "NULLABLE" [],
     SchemaField.mk "city" "RECORD" "REPEATED" []] "Row"
    (create_mapping []) (by decide)).2

/-! ## C3: size-threshold flush in `append()` -/

/-- C3: processing one row inside `append()` triggers a flush exactly when
the cumulative buffered byte count comes to exceed 9,000,000 bytes, and
never before: when it does, the request sent wraps all buffered rows
including the one just appended (so an oversized single row is appended
first and flushed after the fact, before the next row of the `append` loop
is processed), and the buffer and running size reset; otherwise nothing is
sent and the row stays buffered. -/
theorem C3_append_flush_threshold (s : WriterStream) (row : List Nat)
    (rest₀ : List (List Nat)) :
    ((s.appendRow row).sent =
      if THRESHOLD < s.size + row.length
      then s.sent ++ [⟨s.offset, s.buffered ++ [row]⟩] else s.sent) ∧
    ((s.appendRow row).buffered =
      if THRESHOLD < s.size + row.length then [] else s.buffered ++ [row]) ∧
    ((s.appendRow row).size =
      if THRESHOLD < s.size + row.length then 0 else s.size + row.length) ∧
    (s.append (row :: rest₀) = ((s.appendRow row).append rest₀)) := by
  by_cases h : THRESHOLD < s.size + row.length
  · simp [WriterStream.appendRow, WriterStream.submit, WriterStream.append, h]
  · simp [WriterStream.appendRow, WriterStream.submit, WriterStream.append, h]

/-! ## C4: offset stamping and the accepted-row invariant -/

theorem sentRows_append (l : List SentRequest) (r : SentRequest) :
    sentRows (l ++ [r]) = sentRows l + r.rows.length := by
  simp [sentRows]

theorem offsetsFrom_append (l : List SentRequest) (r : SentRequest)
    (k : Int) :
    offsetsFrom (l ++ [r]) k =
      (offsetsFrom l k && (r.offset == k + (sentRows l : Int))) := by
  induction l generalizing k with
  | nil => simp [offsetsFrom, sentRows]
  | cons a l ih =>
    simp [offsetsFrom, ih, sentRows, add_assoc, Bool.and_assoc]

theorem submit_preserves_offsets (s : WriterStream)
    (h1 : offsetsFrom s.sent 0 = true)
    (h2 : s.offset = (sentRows s.sent : Int)) :
    offsetsFrom s.submit.sent 0 = true ∧
      s.submit.offset = (sentRows s.submit.sent : Int) := by
  by_cases hb : 0 < s.buffered.length
  · simp only [WriterStream.submit, hb, if_pos]
    constructor
    · rw [offsetsFrom_append, h1, Bool.true_and, h2]
      simp
    · rw [sentRows_append, h2]
      push_cast
      ring
  · simp only [WriterStream.submit, hb, if_neg, not_false_iff]
    exact ⟨h1, h2⟩

/-- C4: `submit()` on a non-empty buffer stamps the outgoing request with
the current offset and then advances the offset by the number of buffered
rows; consequently, on every stream state reachable from a handle opened at
offset 0, each sent request is stamped with the total number of rows
already accepted (wrapped in earlier requests) on that stream, and the
current offset equals the total row count sent so far. -/
theorem C4_offset_invariant (s : WriterStream) (h : Reachable s) :
    (s.submit.sent =
      if 0 < s.buffered.length
      then s.sent ++ [⟨s.offset, s.buffered⟩] else s.sent) ∧
    (s.submit.offset =
      if 0 < s.buffered.length
      then s.offset + (s.buffered.length : Int) else s.offset) ∧
    offsetsFrom s.sent 0 = true ∧
    s.offset = (sentRows s.sent : Int) := by
  have main : offsetsFrom s.sent 0 = true ∧ s.offset = (sentRows s.sent : Int) := by
    induction h with
    | init => simp [openedStream, offsetsFrom, sentRows]
    | append row h ih =>
      rename_i t
      simp only [WriterStream.appendRow]
      by_cases hc : THRESHOLD < t.size + row.length
      · simp only [hc, if_pos]
        exact submit_preserves_offsets _ ih.1 ih.2
      · simp only [hc, if_neg, not_false_iff]
        exact ih
    | submit h ih =>
      exact submit_preserves_offsets _ ih.1 ih.2
  refine ⟨?_, ?_, main.1, main.2⟩ <;>
    by_cases hb : 0 < s.buffered.length <;>
    simp [WriterStream.submit, hb]

/-- C4 witness: a concrete reachable state — open at 0, append one row,
submit, append two rows, submit again — satisfies the offset invariant. -/
theorem C4_offset_invariant_witness :
    offsetsFrom (((((openedStream.appendRow [7]).submit).appendRow [1]).appendRow [2]).submit).sent 0 = true ∧
    (((((openedStream.appendRow [7]).submit).appendRow [1]).appendRow [2]).submit).offset =
      (sentRows (((((openedStream.appendRow [7]).submit).appendRow [1]).appendRow [2]).submit).sent : Int) := by
  have h := C4_offset_invariant _
    (Reachable.submit (Reachable.append [2] (Reachable.append [1]
      (Reachable.submit (Reachable.append [7] Reachable.init)))))
  exact ⟨h.2.2.1, h.2.2.2⟩

/-! ## C5: `close()` failure behaviour -/

theorem drainFutures_all_ok (l : List (Except String Unit))
    (h : ∀ o ∈ l, o = Except.ok ()) :
    drainFutures l = (l.length, Except.ok ()) := by
  induction l with
  | nil => simp [drainFutures]
  | cons o l ih =>
    have ho : o = Except.ok () := h o (by simp)
    subst ho
    simp [drainFutures, ih (fun o ho => h o (by simp [ho]))]

theorem drainFutures_first_error (pre post : List (Except String Unit))
    (e : String) (h : ∀ o ∈ pre, o = Except.ok ()) :
    drainFutures (pre ++ Except.error e :: post) =
      (pre.length + 1, Except.error e) := by
  induction pre with
  | nil => simp [drainFutures]
  | cons o l ih =>
    have ho : o = Except.ok () := h o (by simp)
    subst ho
    simp [drainFutures, ih (fun o ho => h o (by simp [ho]))]

/-- C5 counterexample: a stream with two outstanding futures whose first
resolves to an error.  `close()` propagates that first failure, but it
awaits only 1 of the 2 futures — the remaining future is not drained — and
the transport connection is never closed, contradicting the claim that
after a failure the remaining futures are still drained and the transport
is still closed. -/
theorem C5_counterexample :
    (openedStream.close [Except.error "boom", Except.ok ()]).result =
        Except.error "boom" ∧
    (openedStream.close [Except.error "boom", Except.ok ()]).awaited = 1 ∧
    (openedStream.close [Except.error "boom", Except.ok ()]).transportClosed
        = false := by
  decide

/-- C5 (amended): `close()` flushes any buffered rows, awaits the
outstanding futures in the order received and propagates the first
encountered failure; when every future succeeds all are awaited and the
transport connection is closed, but after a failure the remaining futures
are NOT awaited and the transport connection is NOT closed (there is no
try/finally around the drain loop). -/
theorem C5_close_first_failure (s : WriterStream)
    (outcomes : List (Except String Unit)) :
    ((∀ o ∈ outcomes, o = Except.ok ()) →
      s.close outcomes =
        ⟨s.submit, outcomes.length, true, Except.ok s.submit.total_size⟩) ∧
    (∀ (pre post : List (Except String Unit)) (e : String),
      outcomes = pre ++ Except.error e :: post →
      (∀ o ∈ pre, o = Except.ok ()) →
      s.close outcomes =
        ⟨s.submit, pre.length + 1, false, Except.error e⟩) := by
  constructor
  · intro h
    simp [WriterStream.close, drainFutures_all_ok outcomes h]
  · intro pre post e hsplit hpre
    subst hsplit
    simp [WriterStream.close, drainFutures_first_error pre post e hpre]

/-- C5 witness: applying the amended theorem at a concrete stream and
future outcomes, on both the all-success path and the first-failure path. -/
theorem C5_close_first_failure_witness :
    openedStream.close [Except.ok (), Except.ok ()] =
      ⟨openedStream.submit, 2, true, Except.ok openedStream.submit.total_size⟩ ∧
    openedStream.close [Except.ok (), Except.error "late", Except.ok ()] =
      ⟨openedStream.submit, 2, false, Except.error "late"⟩ := by
  constructor
  · exact (C5_close_first_failure openedStream [Except.ok (), Except.ok ()]).1
      (by decide)
  · exact (C5_close_first_failure openedStream
      [Except.ok (), Except.error "late", Except.ok ()]).2
      [Except.ok ()] [Except.ok ()] "late" (by decide) (by decide)

/-! ## C6: finalize strictly before commit -/

/-- C6: in the close/commit sequence of the batch writer the transport
trace is always one of `[]`, `[finalize]`, `[finalize, commit]`: whenever a
commit call is issued a finalize call strictly precedes it, and if the
finalize call failed the commit call is never issued. -/
theorem C6_finalize_before_commit (w : BQWriter)
    (finRes comRes : Except String Unit) :
    ((commitModel w finRes comRes).2.1 = [] ∨
     (commitModel w finRes comRes).2.1 = [WEvent.finalizeCall] ∨
     (commitModel w finRes comRes).2.1 =
        [WEvent.finalizeCall, WEvent.commitCall]) ∧
    (WEvent.commitCall ∈ (commitModel w finRes comRes).2.1 →
      (commitModel w finRes comRes).2.1 =
        [WEvent.finalizeCall, WEvent.commitCall]) ∧
    (∀ e, finRes = Except.error e →
      WEvent.commitCall ∉ (commitModel w finRes comRes).2.1) := by
  by_cases hs : 0 < w.streams.length <;>
    rcases hfe : firstErrorOf w.streams with _ | e0 <;>
    rcases finRes with e1 | u1 <;>
    rcases comRes with e2 | u2 <;>
    simp [commitModel, hs, hfe]

/-- C6 witness: with one successfully closing stream and a failing finalize
outcome, no commit call is issued. -/
theorem C6_finalize_before_commit_witness :
    WEvent.commitCall ∉
      (commitModel ⟨[Except.ok 5]⟩ (Except.error "fin") (Except.ok ())).2.1 :=
  (C6_finalize_before_commit ⟨[Except.ok 5]⟩ (Except.error "fin")
    (Except.ok ())).2.2 "fin" rfl

/-! ## C7: idempotence of the close/commit sequence -/

/-- C7 counterexample: a writer with one stream whose `close()` raises (a
failed send future resolves sticky).  The first `commit()` propagates that
error before `self.streams = []` runs, so the streams list is left intact
and a second `commit()` re-runs the close loop, where `f.result()`
re-raises the same error — the second invocation raises, refuting the
unconditional claim that it is a no-op that raises no error. -/
theorem C7_counterexample :
    (commitModel (commitModel ⟨[Except.error "send"]⟩ (Except.ok ())
        (Except.ok ())).1 (Except.ok ()) (Except.ok ())).2.2 =
      Except.error "send" ∧
    (commitModel ⟨[Except.error "send"]⟩ (Except.ok ())
        (Except.ok ())).2.2 = Except.error "send" := by
  decide

/-- C7 (amended): a second `commit()` invocation never issues additional
finalize or commit calls, unconditionally.  When the first invocation's
stream-draining loop raised no failure (any successful run, and also runs
where only finalize or commit failed, since the streams list is cleared
before finalize is called), the second invocation is a complete no-op: no
transport call, no error, state unchanged.  But after a first invocation
aborted by a stream-close failure, the streams list is left intact and the
second invocation re-raises that same first failure. -/
theorem C7_commit_idempotent (w : BQWriter)
    (f1 c1 f2 c2 : Except String Unit) :
    ((commitModel (commitModel w f1 c1).1 f2 c2).2.1 = []) ∧
    (firstErrorOf w.streams = none →
      commitModel (commitModel w f1 c1).1 f2 c2 =
        ((commitModel w f1 c1).1, [], Except.ok ())) ∧
    (∀ e, firstErrorOf w.streams = some e →
      commitModel (commitModel w f1 c1).1 f2 c2 =
        (w, [], Except.error e)) := by
  by_cases hs : 0 < w.streams.length
  · rcases hfe : firstErrorOf w.streams with _ | e0
    · rcases f1 with e1 | u1 <;> rcases c1 with e2 | u2 <;>
        simp [commitModel, hs, hfe]
    · simp [commitModel, hs, hfe]
  · have hnil : w.streams = [] := by
      cases hw : w.streams with
      | nil => rfl
      | cons a l => rw [hw] at hs; simp at hs
    rcases w with ⟨st⟩
    simp at hnil
    subst hnil
    simp [commitModel, firstErrorOf]

/-- C7 witness: one stream closing successfully with a failing first
finalize — the second `commit()` is a no-op with no error; and one stream
whose close fails — the second `commit()` re-raises that failure. -/
theorem C7_commit_idempotent_witness :
    commitModel (commitModel ⟨[Except.ok 3]⟩ (Except.error "fin")
        (Except.ok ())).1 (Except.ok ()) (Except.ok ()) =
      ((commitModel ⟨[Except.ok 3]⟩ (Except.error "fin") (Except.ok ())).1,
        [], Except.ok ()) ∧
    commitModel (commitModel ⟨[Except.error "send"]⟩ (Except.ok ())
        (Except.ok ())).1 (Except.ok ()) (Except.ok ()) =
      (⟨[Except.error "send"]⟩, [], Except.error "send") := by
  constructor
  · exact (C7_commit_idempotent ⟨[Except.ok 3]⟩ (Except.error "fin")
      (Except.ok ()) (Except.ok ()) (Except.ok ())).2.1 (by decide)
  · exact (C7_commit_idempotent ⟨[Except.error "send"]⟩ (Except.ok ())
      (Except.ok ()) (Except.ok ()) (Except.ok ())).2.2 "send" (by decide)

/-! ## C8: TIMESTAMP conversion exactness -/

/-- C8 counterexample: the aware UTC datetime 2004-01-10 13:37:04.000002
(exactly 1073741824000002 microseconds after the epoch) is converted by
`int(v.timestamp() * 1_000_000)` to 1073741824000001 — one microsecond off,
because `timestamp()` rounds to a binary64 and the multiplication rounds
again.  The converter therefore does not map every datetime to its exact
microsecond count. -/
theorem C8_counterexample :
    pyTimestampMicros 1073741824000002 ≠ 1073741824000002 ∧
    pyTimestampMicros 1073741824000002 = 1073741824000001 := by
  decide

/-- C8 (amended): the TIMESTAMP converter computes
`int(timestamp() * 1e6)` through two binary64 roundings; on
2024-01-01T00:00:00Z (1704067200000000 μs after the epoch, whose second
count is exactly representable) this yields exactly 1704067200000000, but
for some datetimes the result drifts by one microsecond from the exact
count. -/
theorem C8_timestamp_2024 :
    pyTimestampMicros 1704067200000000 = 1704067200000000 := by
  decide

/-! ## C2: scalar column actions of the compiled filler -/

/-- C2: the action compiled for a scalar (non-RECORD/STRUCT) column, run
against a dict source: a REQUIRED column's converter is invoked on the
looked-up value and the result assigned unconditionally — also when the
key is absent, in which case the converter receives `None`; a NULLABLE
column is skipped when the value is absent and otherwise converted and
assigned; a REPEATED column is skipped when absent and otherwise each
source element is converted and appended in source order. -/
theorem C2_scalar_actions (conv : List (String × (PyVal → PyVal)))
    (fname ftype fmode : String) (ffields : List SchemaField) (dst : Inst)
    (entries : List (String × PyVal))
    (hty : (ftype == "RECORD" || ftype == "STRUCT") = false) :
    (fmode = "REQUIRED" →
      applyAction conv (.mk fname ftype fmode ffields) dst (.dict entries) =
        .ok (instSet dst fname
          (.scal ((convGet conv ftype).getD (fun v => v)
            (lookupD entries fname))))) ∧
    (fmode = "NULLABLE" →
      ((lookupD entries fname).isNone = true →
        applyAction conv (.mk fname ftype fmode ffields) dst (.dict entries) =
          .ok dst) ∧
      ((lookupD entries fname).isNone = false →
        applyAction conv (.mk fname ftype fmode ffields) dst (.dict entries) =
          .ok (instSet dst fname
            (.scal ((convGet conv ftype).getD (fun v => v)
              (lookupD entries fname)))))) ∧
    (fmode = "REPEATED" →
      ((lookupD entries fname).isNone = true →
        applyAction conv (.mk fname ftype fmode ffields) dst (.dict entries) =
          .ok dst) ∧
      (∀ items, lookupD entries fname = PyVal.list items →
        applyAction conv (.mk fname ftype fmode ffields) dst (.dict entries) =
          .ok (instSet dst fname
            (.reps (fieldRepsList (instGet dst fname) ++
              items.map ((convGet conv ftype).getD (fun v => v))))))) := by
  have hget : pyDictGet (PyVal.dict entries) fname =
      .ok (lookupD entries fname) := rfl
  refine ⟨?_, ?_, ?_⟩
  · intro hm
    subst hm
    simp [applyAction, hty, hget]
  · intro hm
    subst hm
    refine ⟨?_, ?_⟩ <;> intro hnone <;>
      simp [applyAction, hty, hget, hnone]
  · intro hm
    subst hm
    constructor
    · intro hnone
      simp [applyAction, hty, hget, hnone]
    · intro items hitems
      simp [applyAction, hty, hget, hitems, PyVal.isNone]

/-- C2 witness: with no registered converter (identity fallback), a
REQUIRED INTEGER column and a source dict lacking the key: the action still
assigns, the converter having received Python `None`. -/
theorem C2_scalar_actions_witness :
    applyAction [] (SchemaField.mk "x" "INTEGER" "REQUIRED" []) []
        (PyVal.dict []) =
      Except.ok (instSet [] "x" (FieldState.scal PyVal.none)) := by
  have h := (C2_scalar_actions [] "x" "INTEGER" "REQUIRED" [] []
      [] (by decide)).1 rfl
  simpa [convGet, lookupD] using h

/-! ## C10: explicit null equals missing key -/

/-- Python `r[n] = None` on a dict: bind `n` to `None` (no duplicate key). -/
def setKey (entries : List (String × PyVal)) (n : String) (v : PyVal) :
    List (String × PyVal) :=
  (n, v) :: entries.filter (fun p => !(p.1 == n))

/-- Python `del r[n]`-style removal of the key. -/
def delKey (entries : List (String × PyVal)) (n : String) :
    List (String × PyVal) :=
  entries.filter (fun p => !(p.1 == n))

theorem lookupD_setKey_none (entries : List (String × PyVal)) (n m : String) :
    lookupD (setKey entries n PyVal.none) m = lookupD (delKey entries n) m := by
  by_cases h : (n == m) = true
  · have hn : n = m := by simpa using h
    subst hn
    have hfind : (delKey entries n).find? (fun p => p.1 == n) = Option.none := by
      rw [List.find?_eq_none]
      intro x hx
      have := (List.mem_filter.1 hx).2
      simpa using this
    have hconst : entries.find? (fun _ => false) = Option.none := by
      rw [List.find?_eq_none]
      intro x hx
      simp
    simp [lookupD, setKey, delKey, List.find?_cons, hfind, hconst]
  · simp [lookupD, setKey, delKey, List.find?_cons, h]

/-- The per-column action reads the source record only through
`src.get(column name)`, so two dicts with identical lookups act
identically. -/
theorem applyAction_src_congr (conv : List (String × (PyVal → PyVal)))
    (f : SchemaField) (dst : Inst) (e1 e2 : List (String × PyVal))
    (h : ∀ m, lookupD e1 m = lookupD e2 m) :
    applyAction conv f dst (PyVal.dict e1) =
      applyAction conv f dst (PyVal.dict e2) := by
  cases f with
  | mk fname ftype fmode ffields =>
    have g : pyDictGet (PyVal.dict e1) fname =
        pyDictGet (PyVal.dict e2) fname := by
      rw [show pyDictGet (PyVal.dict e1) fname =
            Except.ok (lookupD e1 fname) from rfl,
          show pyDictGet (PyVal.dict e2) fname =
            Except.ok (lookupD e2 fname) from rfl, h fname]
    simp only [applyAction]
    rw [g]

theorem applyFiller_src_congr (conv : List (String × (PyVal → PyVal))) :
    ∀ (fields : List SchemaField) (dst : Inst)
      (e1 e2 : List (String × PyVal)),
      (∀ m, lookupD e1 m = lookupD e2 m) →
      applyFiller conv fields dst (PyVal.dict e1) =
        applyFiller conv fields dst (PyVal.dict e2) := by
  intro fields
  induction fields with
  | nil => intro dst e1 e2 h; simp [applyFiller]
  | cons f rest ih =>
    intro dst e1 e2 h
    simp only [applyFiller]
    rw [applyAction_src_congr conv f dst e1 e2 h]
    cases applyAction conv f dst (PyVal.dict e2) with
    | error e => rfl
    | ok dst1 => exact ih dst1 e1 e2 h

/-- C10: for every schema and destination, applying the compiled filler to
a source record that binds a column name explicitly to `None` produces
exactly the same destination result as applying it to the record with that
key removed: `src.get(name)` yields `None` in both cases, so NULLABLE and
REPEATED columns are skipped in both and a REQUIRED column's converter
receives the null either way. -/
theorem C10_null_eq_missing (conv : List (String × (PyVal → PyVal)))
    (fields : List SchemaField) (dst : Inst)
    (entries : List (String × PyVal)) (n : String) :
    applyFiller conv fields dst (PyVal.dict (setKey entries n PyVal.none)) =
      applyFiller conv fields dst (PyVal.dict (delKey entries n)) :=
  applyFiller_src_congr conv fields dst _ _
    (fun m => lookupD_setKey_none entries n m)

end Miblib
